import Mathlib

/-
Verification of the AnimeWorldDownloader pipeline.

Shallow embedding of src/anime_downloader.py, src/helpers/anime_utils.py and
src/main.py.  Python strings are modelled as Lean String (with List Char used
internally for URL parsing, mirroring CPython urllib.parse.urlsplit), parsed
HTML (BeautifulSoup) as a finite node tree, Python exceptions as an Except
monad over an error type, and side effects (HTTP requests, mkdir, download
dispatch) as an explicit event trace returned alongside the result.
-/

/-- Python exception values that can propagate in this program. -/
inductive PyErr where
  | valueError (msg : String)
  | attributeError (msg : String)
  | keyError (msg : String)
  | typeError (msg : String)
  | runtimeError (msg : String)
  | requestException (msg : String)
  | systemExit (code : Nat)
deriving DecidableEq

/-- Observable side effects of the pipeline, in order of occurrence. -/
inductive Event where
  | requestSent (url : String)
  | responseReceived (url : String)
  | requestFailed (url : String)
  | resolved (url : String)
  | mkdir (path : String)
  | downloadStarted (link : Option String)
deriving DecidableEq

/-- An HTML element: tag name, attribute list, children (BeautifulSoup tree). -/
inductive Node where
  | elem (tag : String) (attrs : List (String × String)) (children : List Node)

/-- A parsed document is its list of top-level elements. -/
abbrev Soup := List Node

def Node.tag : Node → String
  | .elem t _ _ => t

def Node.attrs : Node → List (String × String)
  | .elem _ a _ => a

def Node.children : Node → List Node
  | .elem _ _ c => c

/-- Value of an attribute, if present (Tag.get in BeautifulSoup). -/
def Node.attr (n : Node) (k : String) : Option String :=
  (n.attrs.find? (fun pr => pr.1 == k)).map (fun pr => pr.2)

/-- Attribute-presence test ({attr: True} filters in BeautifulSoup). -/
def Node.hasAttr (n : Node) (k : String) : Bool :=
  (n.attr k).isSome

mutual

/-- All nodes of the subtree rooted at a node (itself included) satisfying a
predicate, in document (pre-)order; the search order of find_all. -/
def Node.findAll (p : Node → Bool) : Node → List Node
  | .elem t a cs =>
    (if p (.elem t a cs) then [Node.elem t a cs] else []) ++ Node.findAllList p cs

/-- find_all over a forest, in document order. -/
def Node.findAllList (p : Node → Bool) : List Node → List Node
  | [] => []
  | n :: ns => Node.findAll p n ++ Node.findAllList p ns

end

/-- soup.find_all(...): all matching elements of the document. -/
def soupFindAll (p : Node → Bool) (s : Soup) : List Node :=
  Node.findAllList p s

/-- soup.find(...): first matching element of the document, or None. -/
def soupFind (p : Node → Bool) (s : Soup) : Option Node :=
  (soupFindAll p s).head?

/-- element.find_all(...): matching proper descendants of an element. -/
def Node.findAllDesc (p : Node → Bool) (n : Node) : List Node :=
  Node.findAllList p n.children

/-- element.find(...): first matching proper descendant, or None. -/
def Node.findDesc (p : Node → Bool) (n : Node) : Option Node :=
  (Node.findAllDesc p n).head?

/-- soup.find("a", {"href": True, "id": "alternativeDownloadLink"}). -/
def isDownloadAnchor (n : Node) : Bool :=
  n.tag == "a" && n.hasAttr "href" && n.attr "id" == some "alternativeDownloadLink"

/-- soup.find("h1", {"class": "title", "data-jtitle": True}). -/
def isTitleTag (n : Node) : Bool :=
  n.tag == "h1" && n.attr "class" == some "title" && n.hasAttr "data-jtitle"

/-- soup.find("div", {"class": "server active"}). -/
def isActiveServer (n : Node) : Bool :=
  n.tag == "div" && n.attr "class" == some "server active"

/-- find_all("li", {"class": "episode"}). -/
def isEpisodeItem (n : Node) : Bool :=
  n.tag == "li" && n.attr "class" == some "episode"

/-- item.find("a"). -/
def isAnchorTag (n : Node) : Bool :=
  n.tag == "a"

/- URL parsing: model of urllib.parse.urlsplit restricted to what urlparse
exposes here (netloc and path), plus posixpath.basename, on char lists. -/

/-- Split a char list at the first occurrence of a character: the part before
it, and (when found) the part after it. -/
def splitFirstChar (c : Char) : List Char → List Char × Option (List Char)
  | [] => ([], none)
  | x :: xs =>
    if x = c then ([], some xs)
    else
      let r := splitFirstChar c xs
      (x :: r.1, r.2)

/-- Characters allowed in a URL scheme after the leading letter. -/
def isSchemeChar (c : Char) : Bool :=
  c.isAlpha || c.isDigit || c = '+' || c = '-' || c = '.'

/-- Take the netloc: characters up to the first of the slash, question mark or
hash delimiters; returns it with the unconsumed remainder. -/
def takeNetloc : List Char → List Char × List Char
  | [] => ([], [])
  | x :: xs =>
    if x = '/' ∨ x = '?' ∨ x = '#' then ([], x :: xs)
    else
      let r := takeNetloc xs
      (x :: r.1, r.2)

/-- The five components of urllib.parse.urlsplit. -/
structure UrlParts where
  scheme : List Char
  netloc : List Char
  path : List Char
  query : List Char
  fragment : List Char

/-- urllib.parse.urlsplit: fragment after the first hash; a scheme when the
text before the first colon is a well-formed scheme; a netloc after a double
slash; query after the first question mark; the rest is the path. -/
def urlsplitL (url : List Char) : UrlParts :=
  let f := splitFirstChar '#' url
  let fragment := f.2.getD []
  let s := splitFirstChar ':' f.1
  let schemeRest :=
    match s.2 with
    | some a =>
        if s.1 ≠ [] ∧ s.1.head?.any Char.isAlpha ∧ s.1.all isSchemeChar then
          (s.1.map Char.toLower, a)
        else ([], f.1)
    | none => ([], f.1)
  let netlocRest :=
    match schemeRest.2 with
    | '/' :: '/' :: r => takeNetloc r
    | r => ([], r)
  let q := splitFirstChar '?' netlocRest.2
  { scheme := schemeRest.1, netloc := netlocRest.1, path := q.1,
    query := q.2.getD [], fragment := fragment }

/-- str.strip(c): remove the character from both ends. -/
def stripChar (c : Char) (l : List Char) : List Char :=
  ((l.dropWhile (fun x => x = c)).reverse.dropWhile (fun x => x = c)).reverse

/-- str.split(c): split on every occurrence; the empty string yields one empty
field, like Python. -/
def splitAllChar (c : Char) : List Char → List (List Char)
  | [] => [[]]
  | x :: xs =>
    if x = c then [] :: splitAllChar c xs
    else
      match splitAllChar c xs with
      | [] => [[x]]
      | h :: t => (x :: h) :: t

/-- posixpath.basename: the part of a path after its last slash. -/
def basenameL (p : List Char) : List Char :=
  (p.reverse.takeWhile (fun c => c ≠ '/')).reverse

/-- The uses_params list of urllib.parse: the schemes for which urlparse
splits ;params off the last path segment. -/
def usesParams : List (List Char) :=
  ["", "ftp", "hdl", "prospero", "http", "imap", "https", "imaps", "shttp",
   "rtsp", "rtspu", "sip", "sips", "mms", "sftp", "tel"].map String.data

/-- _splitparams of urllib.parse: when the path contains a slash, split it at
the first semicolon of its last segment (no semicolon there leaves the path
whole); a slash-free path splits at its first semicolon. -/
def splitparamsL (p : List Char) : List Char × List Char :=
  if ('/' : Char) ∈ p then
    let lastSeg := (p.reverse.takeWhile (fun c => c ≠ '/')).reverse
    let initSeg := (p.reverse.dropWhile (fun c => c ≠ '/')).reverse
    match splitFirstChar ';' lastSeg with
    | (pre, some params) => (initSeg ++ pre, params)
    | (_, none) => (p, [])
  else
    match splitFirstChar ';' p with
    | (pre, some params) => (pre, params)
    | (_, none) => (p, [])

/-- The six components of urllib.parse.urlparse. -/
structure ParseResult where
  scheme : List Char
  netloc : List Char
  path : List Char
  params : List Char
  query : List Char
  fragment : List Char

/-- urllib.parse.urlparse: urlsplit, then, for a scheme in uses_params whose
path contains a semicolon, split ;params off the last path segment. -/
def urlparseL (url : List Char) : ParseResult :=
  let s := urlsplitL url
  if s.scheme ∈ usesParams ∧ (';' : Char) ∈ s.path then
    let pr := splitparamsL s.path
    { scheme := s.scheme, netloc := s.netloc, path := pr.1, params := pr.2,
      query := s.query, fragment := s.fragment }
  else
    { scheme := s.scheme, netloc := s.netloc, path := s.path, params := [],
      query := s.query, fragment := s.fragment }

/-- os.path.join for two components (POSIX): an absolute second component
replaces the first; otherwise they are joined with a slash unless the first is
empty or already ends in one. -/
def pathJoin (a b : String) : String :=
  if b.data.head? = some '/' then b
  else if a = "" ∨ a.data.getLast? = some '/' then a ++ b
  else a ++ "/" ++ b

/- helpers/anime_utils.py -/

/-- extract_anime_id: parse the input URL; with fewer than three path segments
raise ValueError, otherwise return the host page https://netloc/playtag/ and
the second path segment as the anime id. -/
def extract_anime_id (url : String) : Except PyErr (String × String) :=
  let pr := urlparseL url.data
  let segs := splitAllChar '/' (stripChar '/' pr.path)
  match segs with
  | s0 :: s1 :: _ :: _ =>
      .ok (String.mk ("https://".data ++ pr.netloc ++ ('/' :: s0) ++ ['/']),
           String.mk s1)
  | _ => .error (.valueError "URL does not contain enough path segments.")

/-- The value extract_anime_name hands back: the title string, or — when an
AttributeError was caught — the AttributeError object itself, returned (not
raised) by the except branch of the source. -/
inductive NameResult where
  | name (s : String)
  | attrErrorObj (msg : String)
deriving DecidableEq

/-- extract_anime_name: find the h1 title tag; missing tag raises ValueError;
a missing soup (AttributeError on soup.find) is caught and the exception
object is RETURNED as the result. -/
def extract_anime_name (soup : Option Soup) : Except PyErr NameResult :=
  match soup with
  | none =>
      .ok (.attrErrorObj
        "Error extracting anime name: NoneType object has no attribute find")
  | some s =>
    match soupFind isTitleTag s with
    | none => .error (.valueError "Anime title tag not found.")
    | some t =>
      match t.attr "data-jtitle" with
      | none => .error (.keyError "data-jtitle")
      | some v => .ok (.name v)

/-- The list comprehension [item.find("a").get("data-id") for item in items]:
a missing anchor raises AttributeError at the first offending item. -/
def collect_ids : List Node → Except PyErr (List (Option String))
  | [] => .ok []
  | it :: its =>
    match Node.findDesc isAnchorTag it with
    | none =>
        .error (.attributeError
          "Error accessing tag attributes: NoneType object has no attribute get")
    | some a =>
      match collect_ids its with
      | .error e => .error e
      | .ok rest => .ok (a.attr "data-id" :: rest)

/-- get_episode_ids: find the active server container (a missing soup or
container raises AttributeError), collect the episode items; an empty item
list raises ValueError (re-raised by the except ValueError branch), otherwise
the data-id of each item's first anchor is collected in document order. -/
def get_episode_ids (soup : Option Soup) : Except PyErr (List (Option String)) :=
  match soup with
  | none =>
      .error (.attributeError
        "Error accessing tag attributes: NoneType object has no attribute find")
  | some s =>
    match soupFind isActiveServer s with
    | none =>
        .error (.attributeError
          "Error accessing tag attributes: NoneType object has no attribute find_all")
    | some container =>
      let items := Node.findAllDesc isEpisodeItem container
      if items.isEmpty then
        .error (.valueError "Error processing episode counts or IDs.")
      else collect_ids items

/-- generate_episodes_urls: one URL per episode id, host page then anime id
then a slash then the episode id; pure string formatting. -/
def generate_episodes_urls (host_page anime_id : String)
    (episode_ids : List String) : List String :=
  episode_ids.map (fun episode_id => host_page ++ anime_id ++ "/" ++ episode_id)

/-- Python str() of a value that may be None, as used when a None data-id is
interpolated into an f-string. -/
def optStr : Option String → String
  | some s => s
  | none => "None"

/- src/anime_downloader.py -/

/-- Outcome of one HTTP GET of a page: a parsed document, or a
requests.RequestException. -/
inductive FetchOutcome where
  | success (soup : Soup)
  | failure (msg : String)

/-- The network, as a map from URL to fetch outcome. -/
abbrev Net := String → FetchOutcome

/-- fetch_page: GET the URL; on success return the parsed soup; on a
RequestException print the error and call sys.exit(1) — modelled as a
SystemExit exception, which no handler in this program catches. -/
def fetch_page (net : Net) (url : String) : Except PyErr Soup × List Event :=
  match net url with
  | .success s => (.ok s, [.requestSent url, .responseReceived url])
  | .failure _ => (.error (.systemExit 1), [.requestSent url, .requestFailed url])

/-- process_episode_url: find the alternative-download anchor; a missing soup
(AttributeError) is re-raised as ValueError; a missing anchor raises
ValueError; otherwise the anchor's href (Tag.get, hence optional). -/
def process_episode_url (soup : Option Soup) : Except PyErr (Option String) :=
  match soup with
  | none =>
      .error (.valueError
        "Error accessing tag attributes: NoneType object has no attribute find")
  | some s =>
    match soupFind isDownloadAnchor s with
    | none => .error (.valueError "No download link found on the episode page.")
    | some item => .ok (item.attr "href")

/-- One iteration of the loop of get_download_links: fetch the episode page,
then extract the download link from it. -/
def resolve_one (net : Net) (u : String) : Except PyErr (Option String) × List Event :=
  match fetch_page net u with
  | (.error e, tr) => (.error e, tr)
  | (.ok s, tr) =>
    match process_episode_url (some s) with
    | .error e => (.error e, tr)
    | .ok l => (.ok l, tr ++ [.resolved u])

/-- The for-loop of get_download_links: URLs processed strictly in order, one
at a time; the first exception propagates and ends the loop. -/
def gdlLoop (net : Net) : List String → Except PyErr (List (Option String)) × List Event
  | [] => (.ok [], [])
  | u :: us =>
    match resolve_one net u with
    | (.error e, tr) => (.error e, tr)
    | (.ok l, tr) =>
      let r := gdlLoop net us
      match r.1 with
      | .error e => (.error e, tr ++ r.2)
      | .ok ls => (.ok (l :: ls), tr ++ r.2)

/-- get_download_links: run the loop; an empty result list raises
RuntimeError. -/
def get_download_links (net : Net) (episodes_urls : List String) :
    Except PyErr (List (Option String)) × List Event :=
  match gdlLoop net episodes_urls with
  | (.error e, tr) => (.error e, tr)
  | (.ok embed_urls, tr) =>
    if embed_urls.isEmpty then
      (.error (.runtimeError "No valid embed URLs were found."), tr)
    else (.ok embed_urls, tr)

/-- get_episode_filename: for a truthy link, the basename of the urlparse
path (query, fragment and — for params-using schemes — any ;params of the
last segment stripped); None or the empty string yields None. -/
def get_episode_filename (download_link : Option String) : Option String :=
  match download_link with
  | some s =>
    if s.data = [] then none
    else some (String.mk (basenameL (urlparseL s.data).path))
  | none => none

/-- An HTTP response to a download GET: whether raise_for_status passes. -/
structure Resp where
  statusOk : Bool

/-- The download-side world: the streaming GET of a link, and the effect of
save_file_with_progress on the final path (its code is outside src; streaming
errors surface as RequestException, file errors as other exceptions). -/
structure DlWorld where
  get : String → Except String Resp
  save : String → String → Except PyErr Unit

/-- The try-block body of download_episode: GET the link (a None link makes
requests raise a RequestException), raise_for_status (a failing status is an
HTTPError, a RequestException), derive the file name (a None file name makes
os.path.join raise TypeError), join it to the download path and save. -/
def download_episode_body (w : DlWorld) (download_link : Option String)
    (download_path : String) : Except PyErr Unit :=
  match download_link with
  | none => .error (.requestException "Invalid URL None")
  | some l =>
    match w.get l with
    | .error m => .error (.requestException m)
    | .ok resp =>
      if resp.statusOk then
        match get_episode_filename download_link with
        | none => .error (.typeError "join() argument must be str, not None")
        | some file_name =>
          match w.save l (pathJoin download_path file_name) with
          | .error e => .error e
          | .ok _ => .ok ()
      else .error (.requestException "HTTPError")

/-- download_episode: run the body; any requests.RequestException raised in it
is caught and printed, and the function returns normally; any other exception
propagates. -/
def download_episode (w : DlWorld) (download_link : Option String)
    (download_path : String) : Except PyErr Unit × List Event :=
  match download_episode_body w download_link download_path with
  | .error (.requestException _) => (.ok (), [.downloadStarted download_link])
  | .error e => (.error e, [.downloadStarted download_link])
  | .ok _ => (.ok (), [.downloadStarted download_link])

/-- Modelled from the spec: run_in_parallel (helpers/download_utils.py, not
under src) dispatches download_episode over the download links with a bounded
worker pool; per the spec's failure policy a single download's failure is
caught and logged and does not abort sibling downloads. -/
def download_anime (w : DlWorld) (download_links : List (Option String))
    (download_path : String) : Except PyErr Unit × List Event :=
  (.ok (), download_links.flatMap (fun l => (download_episode w l download_path).2))

/-- create_download_directory: join the Downloads folder with the anime name
and create it; an OSError is printed and sys.exit(1) is called. -/
def create_download_directory (fs : String → Bool) (anime_name : String) :
    Except PyErr String × List Event :=
  let download_path := pathJoin "Downloads" anime_name
  if fs download_path then (.ok download_path, [.mkdir download_path])
  else (.error (.systemExit 1), [])

/-- The try-block body of process_anime_download, from extract_anime_id to
download_anime. A NameResult that is an exception object makes the subsequent
os.path.join raise TypeError. -/
def process_anime_download_body (net : Net) (fs : String → Bool) (w : DlWorld)
    (url : String) (soup : Soup) : Except PyErr Unit × List Event :=
  match extract_anime_id url with
  | .error e => (.error e, [])
  | .ok (host_page, anime_id) =>
    match extract_anime_name (some soup) with
    | .error e => (.error e, [])
    | .ok (.attrErrorObj _) =>
        (.error (.typeError "join() argument must be str, not AttributeError"), [])
    | .ok (.name anime_name) =>
      match create_download_directory fs anime_name with
      | (.error e, tr1) => (.error e, tr1)
      | (.ok download_path, tr1) =>
        match get_episode_ids (some soup) with
        | .error e => (.error e, tr1)
        | .ok episode_ids =>
          let episodes_urls :=
            generate_episodes_urls host_page anime_id (episode_ids.map optStr)
          match get_download_links net episodes_urls with
          | (.error e, tr2) => (.error e, tr1 ++ tr2)
          | (.ok download_links, tr2) =>
            match download_anime w download_links download_path with
            | (r, tr3) => (r, tr1 ++ tr2 ++ tr3)

/-- process_anime_download: fetch the listing page, then run the body; only a
ValueError from the body is caught (and printed); every other exception —
including SystemExit from fetch_page — propagates. -/
def process_anime_download (net : Net) (fs : String → Bool) (w : DlWorld)
    (url : String) : Except PyErr Unit × List Event :=
  match fetch_page net url with
  | (.error e, tr0) => (.error e, tr0)
  | (.ok soup, tr0) =>
    match process_anime_download_body net fs w url soup with
    | (.error (.valueError _), tr) => (.ok (), tr0 ++ tr)
    | (r, tr) => (r, tr0 ++ tr)

/-- process_urls (src/main.py): process the URLs of the file top to bottom;
an uncaught exception from one URL ends the loop. -/
def process_urls (net : Net) (fs : String → Bool) (w : DlWorld) :
    List String → Except PyErr Unit × List Event
  | [] => (.ok (), [])
  | u :: us =>
    match process_anime_download net fs w u with
    | (.error e, tr) => (.error e, tr)
    | (.ok _, tr) =>
      let r := process_urls net fs w us
      (r.1, tr ++ r.2)

/- Specification-side observers over results and traces. -/

/-- Number of links in a link-resolution result, when it is a list at all. -/
def resultLinkCount : Except PyErr (List (Option String)) → Option Nat
  | .ok l => some l.length
  | .error _ => none

/-- The series name the pipeline extracts for a listing URL: the data-jtitle
of the fetched listing page, when everything needed for it succeeds. -/
def extractedName (net : Net) (url : String) : Option String :=
  match net url with
  | .failure _ => none
  | .success soup =>
    match extract_anime_name (some soup) with
    | .ok (.name n) => some n
    | _ => none

def isMkdirE : Event → Bool
  | .mkdir _ => true
  | _ => false

def isDlStartE : Event → Bool
  | .downloadStarted _ => true
  | _ => false

def isResolvedE : Event → Bool
  | .resolved _ => true
  | _ => false

/-- Events belonging to page fetching or link resolution. -/
def isResolutionE : Event → Bool
  | .requestSent _ => true
  | .responseReceived _ => true
  | .requestFailed _ => true
  | .resolved _ => true
  | _ => false

/-- Every p-event of the trace occurs strictly before every q-event. -/
def precedesAll (p q : Event → Bool) (tr : List Event) : Prop :=
  ∀ i j, (hi : i < tr.length) → (hj : j < tr.length) →
    p (tr.get ⟨i, hi⟩) = true → q (tr.get ⟨j, hj⟩) = true → i < j

/-- Change in the number of in-flight HTTP requests at one event. -/
def applyEvent (cur : Nat) : Event → Nat
  | .requestSent _ => cur + 1
  | .responseReceived _ => cur - 1
  | .requestFailed _ => cur - 1
  | _ => cur

/-- Largest number of simultaneously in-flight requests along a trace,
starting from cur in flight. -/
def inFlightMaxAux (cur : Nat) : List Event → Nat
  | [] => cur
  | e :: es => max cur (inFlightMaxAux (applyEvent cur e) es)

/-- Largest number of simultaneously in-flight requests along a trace. -/
def maxInFlight (tr : List Event) : Nat :=
  inFlightMaxAux 0 tr

/-- Whether a download_episode result lets a RequestException escape. -/
def isUncaughtReqExc : Except PyErr Unit × List Event → Bool
  | (.error (.requestException _), _) => true
  | _ => false

/- Concrete fixtures: a three-episode series, the shapes the scraper expects. -/

/-- An episode page holding the alternative-download anchor. -/
def epPage (href : String) : Soup :=
  [Node.elem "html" [] [Node.elem "a" [("href", href), ("id", "alternativeDownloadLink")] []]]

/-- An episode page lacking the expected anchor. -/
def badEpPage : Soup :=
  [Node.elem "html" [] [Node.elem "p" [] []]]

/-- One episode entry of the listing page. -/
def epItem (i : String) : Node :=
  Node.elem "li" [("class", "episode")] [Node.elem "a" [("data-id", i)] []]

/-- The active server container of the listing page. -/
def serverDiv : Node :=
  Node.elem "div" [("class", "server active")] [epItem "101", epItem "102", epItem "103"]

/-- A server container with zero episode items. -/
def emptyServerDiv : Node :=
  Node.elem "div" [("class", "server active")] [Node.elem "p" [] []]

/-- The title heading of the listing page. -/
def titleNode : Node :=
  Node.elem "h1" [("class", "title"), ("data-jtitle", "Example Series")] []

/-- A well-formed listing page with three episodes. -/
def listingSoup : Soup :=
  [Node.elem "html" [] [titleNode, serverDiv]]

/-- A listing page whose active server container has no episode items. -/
def emptyListingSoup : Soup :=
  [Node.elem "html" [] [titleNode, emptyServerDiv]]

def listingUrl : String := "https://aw.example/play/anime1/example-series"

def epUrl (i : String) : String := "https://aw.example/play/anime1/" ++ i

def cdnLink (i : String) : String :=
  "https://cdn.example/videos/ep" ++ i ++ ".mp4?token=abc"

/-- A network where the listing page and all three episode pages resolve. -/
def netGood : Net := fun u =>
  if u = listingUrl then .success listingSoup
  else if u = epUrl "101" then .success (epPage (cdnLink "101"))
  else if u = epUrl "102" then .success (epPage (cdnLink "102"))
  else if u = epUrl "103" then .success (epPage (cdnLink "103"))
  else .failure "404"

/-- Same network, but episode 102's page lacks the download anchor. -/
def netOneBad : Net := fun u =>
  if u = epUrl "102" then .success badEpPage else netGood u

/-- A network where every request fails. -/
def netDown : Net := fun u => .failure ("timeout: " ++ u)

/-- Same network as netGood, but fetching episode 102's page fails. -/
def netFetchBad : Net := fun u =>
  if u = epUrl "102" then .failure "connection reset" else netGood u

/-- The download link netGood resolves an episode-page URL to. -/
def linkOf : String → Option String := fun u =>
  match (resolve_one netGood u).1 with
  | .ok l => l
  | .error _ => none

def fsOk : String → Bool := fun _ => true

def wOk : DlWorld :=
  { get := fun _ => .ok { statusOk := true }, save := fun _ _ => .ok () }

/- Helper lemmas. -/

lemma resolve_one_events (net : Net) (u : String) :
    ∀ e ∈ (resolve_one net u).2,
      e = Event.requestSent u ∨ e = Event.responseReceived u ∨
      e = Event.requestFailed u ∨ e = Event.resolved u := by
  intro e he
  rcases hn : net u with s | m
  · simp only [resolve_one, fetch_page, hn] at he
    cases hp : process_episode_url (some s) with
    | error e' =>
      simp only [hp, List.mem_cons, List.not_mem_nil, or_false] at he
      tauto
    | ok l =>
      simp only [hp, List.mem_append, List.mem_cons, List.not_mem_nil, or_false] at he
      tauto
  · simp only [resolve_one, fetch_page, hn, List.mem_cons, List.not_mem_nil,
      or_false] at he
    tauto

lemma gdlLoop_all_ok (net : Net) (L : String → Option String) :
    ∀ urls : List String, (∀ u ∈ urls, (resolve_one net u).1 = Except.ok (L u)) →
      (gdlLoop net urls).1 = Except.ok (urls.map L) := by
  intro urls
  induction urls with
  | nil => intro _; rfl
  | cons u us ih =>
    intro h
    have hu := h u (List.mem_cons_self u us)
    have hus := ih (fun v hv => h v (List.mem_cons_of_mem u hv))
    rcases hrr : resolve_one net u with ⟨res, tr⟩
    rw [hrr] at hu
    simp only at hu
    rcases hgg : gdlLoop net us with ⟨gres, gtr⟩
    rw [hgg] at hus
    simp only at hus
    simp [gdlLoop, hrr, hgg, hu, hus]

lemma gdlLoop_first_error (net : Net) (e : PyErr) :
    ∀ (us1 : List String) (u : String) (us2 : List String),
      (∀ v ∈ us1, ∃ l, (resolve_one net v).1 = Except.ok l) →
      (resolve_one net u).1 = Except.error e →
      (gdlLoop net (us1 ++ u :: us2)).1 = Except.error e ∧
      ∀ v, Event.requestSent v ∈ (gdlLoop net (us1 ++ u :: us2)).2 →
        v ∈ us1 ∨ v = u := by
  intro us1
  induction us1 with
  | nil =>
    intro u us2 _ hu
    rcases hrr : resolve_one net u with ⟨res, tr⟩
    rw [hrr] at hu
    simp only at hu
    constructor
    · simp [gdlLoop, hrr, hu]
    · intro v hv
      simp only [List.nil_append, gdlLoop, hrr, hu] at hv
      have := resolve_one_events net u (Event.requestSent v) (by rw [hrr]; exact hv)
      rcases this with h | h | h | h
      · right; exact (Event.requestSent.injEq v u).mp h
      all_goals simp at h
  | cons w ws ih =>
    intro u us2 h1 hu
    obtain ⟨l, hl⟩ := h1 w (List.mem_cons_self w ws)
    have ihh := ih u us2 (fun v hv => h1 v (List.mem_cons_of_mem w hv)) hu
    rcases hrr : resolve_one net w with ⟨res, tr⟩
    rw [hrr] at hl
    simp only at hl
    rcases hgg : gdlLoop net (ws ++ u :: us2) with ⟨gres, gtr⟩
    rw [hgg] at ihh
    simp only at ihh
    obtain ⟨he, hm⟩ := ihh
    constructor
    · simp [gdlLoop, hrr, hl, hgg, he]
    · intro v hv
      simp [gdlLoop, hrr, hl, hgg, he, List.mem_append] at hv
      rcases hv with hv | hv
      · have := resolve_one_events net w (Event.requestSent v) (by rw [hrr]; exact hv)
        rcases this with h | h | h | h
        · left; rw [(Event.requestSent.injEq v w).mp h]; exact List.mem_cons_self w ws
        all_goals simp at h
      · rcases hm v hv with h | h
        · left; exact List.mem_cons_of_mem w h
        · right; exact h

lemma download_episode_trace (w : DlWorld) (link : Option String) (path : String) :
    (download_episode w link path).2 = [Event.downloadStarted link] := by
  cases h : download_episode_body w link path with
  | error e => cases e <;> simp [download_episode, h]
  | ok u => simp [download_episode, h]

/- Claim theorems. -/

/-- C9: when extracting the anime name raises AttributeError (the soup being
None makes soup.find raise), extract_anime_name catches it and RETURNS the
AttributeError object as its result instead of raising: the call completes
normally and the caller receives a non-string value as the anime name. -/
theorem c9_name_error_returned_not_raised :
    extract_anime_name none =
      Except.ok (NameResult.attrErrorObj
        "Error extracting anime name: NoneType object has no attribute find") := rfl

/-- C3: generate_episodes_urls is a pure total function returning exactly one
URL per episode id, in input order, the i-th being exactly
host_page ++ anime_id ++ "/" ++ episode_ids[i]. -/
theorem c3_generate_episodes_urls_exact (hp aid : String) (ids : List String) :
    (generate_episodes_urls hp aid ids).length = ids.length ∧
    ∀ i, (h1 : i < ids.length) → (h2 : i < (generate_episodes_urls hp aid ids).length) →
      (generate_episodes_urls hp aid ids).get ⟨i, h2⟩ =
        hp ++ aid ++ "/" ++ ids.get ⟨i, h1⟩ := by
  constructor
  · exact List.length_map ids _
  · intro i h1 h2
    simp [generate_episodes_urls]

/-- Witness for C3 at a concrete host page, anime id and id list. -/
theorem c3_witness :
    (generate_episodes_urls "https://aw.example/play/" "anime1" ["101", "102"]).length =
      (["101", "102"] : List String).length ∧
    (generate_episodes_urls "https://aw.example/play/" "anime1" ["101", "102"]).get
        ⟨1, by decide⟩ =
      "https://aw.example/play/" ++ "anime1" ++ "/" ++
        (["101", "102"] : List String).get ⟨1, by decide⟩ :=
  ⟨(c3_generate_episodes_urls_exact "https://aw.example/play/" "anime1" ["101", "102"]).1,
   (c3_generate_episodes_urls_exact "https://aw.example/play/" "anime1" ["101", "102"]).2
     1 (by decide) (by decide)⟩

/-- C10: get_download_links raises RuntimeError exactly on an empty input
list: on empty input it raises RuntimeError, and on any non-empty input whose
every per-URL fetch and extraction succeeds it returns the resolved links,
one per URL in input order, so the RuntimeError branch is not taken. -/
theorem c10_runtime_error_iff_empty :
    (∀ net : Net, (get_download_links net []).1 =
        Except.error (PyErr.runtimeError "No valid embed URLs were found.")) ∧
    (∀ (net : Net) (L : String → Option String) (urls : List String),
      urls ≠ [] → (∀ u ∈ urls, (resolve_one net u).1 = Except.ok (L u)) →
      (get_download_links net urls).1 = Except.ok (urls.map L)) := by
  constructor
  · intro net; rfl
  · intro net L urls hne hall
    rcases hgg : gdlLoop net urls with ⟨gres, gtr⟩
    have h := gdlLoop_all_ok net L urls hall
    rw [hgg] at h
    simp only at h
    cases urls with
    | nil => exact absurd rfl hne
    | cons u us => simp [get_download_links, hgg, h]

/-- Witness for C10 on the three-episode fixture network. -/
theorem c10_witness :
    (get_download_links netGood [epUrl "101", epUrl "102", epUrl "103"]).1 =
      Except.ok ([epUrl "101", epUrl "102", epUrl "103"].map linkOf) :=
  c10_runtime_error_iff_empty.2 netGood linkOf [epUrl "101", epUrl "102", epUrl "103"]
    (by decide) (by intro u hu; fin_cases hu <;> rfl)

/-- Counterexample to C1 as stated: in a batch of 3 episode URLs where the
second page lacks the download anchor, get_download_links does not return the
2 successfully resolved links — it raises the ValueError, returning no list
at all. -/
theorem c1_counterexample :
    (get_download_links netOneBad [epUrl "101", epUrl "102", epUrl "103"]).1 =
      Except.error (PyErr.valueError "No download link found on the episode page.") ∧
    resultLinkCount (get_download_links netOneBad
      [epUrl "101", epUrl "102", epUrl "103"]).1 = none :=
  ⟨rfl, rfl⟩

/-- C1 amended: a fetch or extraction failure for one URL ABORTS resolution of
the remaining URLs in the batch: the first failing URL's exception propagates
out of get_download_links, no list is returned, and no URL after the failing
one is ever fetched. -/
theorem c1_first_failure_aborts_resolution (net : Net) (us1 : List String)
    (u : String) (us2 : List String) (e : PyErr)
    (h1 : ∀ v ∈ us1, ∃ l, (resolve_one net v).1 = Except.ok l)
    (h2 : (resolve_one net u).1 = Except.error e) :
    (get_download_links net (us1 ++ u :: us2)).1 = Except.error e ∧
    ∀ v, Event.requestSent v ∈ (get_download_links net (us1 ++ u :: us2)).2 →
      v ∈ us1 ∨ v = u := by
  rcases hgg : gdlLoop net (us1 ++ u :: us2) with ⟨gres, gtr⟩
  have h := gdlLoop_first_error net e us1 u us2 h1 h2
  rw [hgg] at h
  obtain ⟨he, hm⟩ := h
  simp only at he
  constructor
  · simp [get_download_links, hgg, he]
  · intro v hv
    simp only [get_download_links, hgg, he] at hv
    exact hm v hv

/-- Witness for C1's amended theorem on the batch of 3 with the second page
malformed. -/
theorem c1_witness :
    (get_download_links netOneBad [epUrl "101", epUrl "102", epUrl "103"]).1 =
      Except.error (PyErr.valueError "No download link found on the episode page.") :=
  (c1_first_failure_aborts_resolution netOneBad [epUrl "101"] (epUrl "102")
      [epUrl "103"] (PyErr.valueError "No download link found on the episode page.")
      (by intro v hv; fin_cases hv; exact ⟨some (cdnLink "101"), rfl⟩)
      rfl).1

/-- C6: a download failure surfaced as requests.RequestException is caught
inside download_episode and never propagates to the caller; the dispatch over
the batch therefore starts one download per link, siblings unaffected. -/
theorem c6_request_exception_caught :
    (∀ (w : DlWorld) (link : Option String) (path : String),
        isUncaughtReqExc (download_episode w link path) = false) ∧
    (∀ (w : DlWorld) (links : List (Option String)) (path : String),
        (download_anime w links path).1 = Except.ok () ∧
        (download_anime w links path).2 = links.map Event.downloadStarted) := by
  constructor
  · intro w link path
    cases h : download_episode_body w link path with
    | error e => cases e <;> simp [download_episode, isUncaughtReqExc, h]
    | ok u => simp [download_episode, isUncaughtReqExc, h]
  · intro w links path
    refine ⟨rfl, ?_⟩
    induction links with
    | nil => rfl
    | cons l ls ih =>
      simp only [download_anime] at ih ⊢
      have ih2 : (ls.flatMap fun x => [Event.downloadStarted x]) =
          List.map Event.downloadStarted ls := by
        rw [← ih]
        simp [download_episode_trace]
      simp [download_episode_trace, ih2]

lemma collect_ids_all_some :
    ∀ its : List Node, (∀ it ∈ its, (Node.findDesc isAnchorTag it).isSome = true) →
      collect_ids its = Except.ok (its.map fun it =>
        (Node.findDesc isAnchorTag it).bind fun a => a.attr "data-id") := by
  intro its
  induction its with
  | nil => intro _; rfl
  | cons it rest ih =>
    intro h
    obtain ⟨a, ha⟩ := Option.isSome_iff_exists.mp (h it (List.mem_cons_self it rest))
    have hr := ih (fun x hx => h x (List.mem_cons_of_mem it hx))
    simp [collect_ids, ha, hr]

lemma collect_ids_cons_ne_nil (it : Node) (rest : List Node)
    (ids : List (Option String)) (h : collect_ids (it :: rest) = Except.ok ids) :
    ids ≠ [] := by
  cases hf : Node.findDesc isAnchorTag it with
  | none => simp [collect_ids, hf] at h
  | some a =>
    cases hc : collect_ids rest with
    | error e => simp [collect_ids, hf, hc] at h
    | ok r =>
      simp [collect_ids, hf, hc] at h
      rw [← h]
      simp

/-- C4: on a parsed listing page whose active server container holds zero
episode items, get_episode_ids raises ValueError; it never returns an empty
sequence; and on a well-formed page it returns exactly one identifier per
episode item, in document order. -/
theorem c4_get_episode_ids_exact :
    (∀ (s : Soup) (c : Node), soupFind isActiveServer s = some c →
        Node.findAllDesc isEpisodeItem c = [] →
        get_episode_ids (some s) =
          Except.error (PyErr.valueError "Error processing episode counts or IDs.")) ∧
    (∀ (so : Option Soup) (ids : List (Option String)),
        get_episode_ids so = Except.ok ids → ids ≠ []) ∧
    (∀ (s : Soup) (c : Node), soupFind isActiveServer s = some c →
        (Node.findAllDesc isEpisodeItem c).isEmpty = false →
        (∀ it ∈ Node.findAllDesc isEpisodeItem c,
            (Node.findDesc isAnchorTag it).isSome = true) →
        get_episode_ids (some s) = Except.ok ((Node.findAllDesc isEpisodeItem c).map
          fun it => (Node.findDesc isAnchorTag it).bind fun a => a.attr "data-id")) := by
  refine ⟨?_, ?_, ?_⟩
  · intro s c hf he
    simp [get_episode_ids, hf, he]
  · intro so ids h
    cases so with
    | none => simp [get_episode_ids] at h
    | some s =>
      cases hf : soupFind isActiveServer s with
      | none => simp [get_episode_ids, hf] at h
      | some c =>
        rcases hi : Node.findAllDesc isEpisodeItem c with _ | ⟨it, rest⟩
        · simp [get_episode_ids, hf, hi] at h
        · simp [get_episode_ids, hf, hi] at h
          exact collect_ids_cons_ne_nil it rest ids h
  · intro s c hf hne hall
    rcases hi : Node.findAllDesc isEpisodeItem c with _ | ⟨it, rest⟩
    · rw [hi] at hne
      simp at hne
    · rw [hi] at hall
      have hcoll := collect_ids_all_some (it :: rest) hall
      simp [get_episode_ids, hf, hi, hcoll]

/-- Witness for C4: the empty-container page raises ValueError; a concrete
well-formed three-episode page returns its three identifiers; and a returned
list is non-empty. -/
theorem c4_witness :
    get_episode_ids (some emptyListingSoup) =
      Except.error (PyErr.valueError "Error processing episode counts or IDs.") ∧
    get_episode_ids (some listingSoup) =
      Except.ok ((Node.findAllDesc isEpisodeItem serverDiv).map
        fun it => (Node.findDesc isAnchorTag it).bind fun a => a.attr "data-id") ∧
    ([some "101", some "102", some "103"] : List (Option String)) ≠ [] :=
  ⟨c4_get_episode_ids_exact.1 emptyListingSoup emptyServerDiv rfl rfl,
   c4_get_episode_ids_exact.2.2 listingSoup serverDiv rfl rfl (by decide),
   c4_get_episode_ids_exact.2.1 (some listingSoup)
     [some "101", some "102", some "103"] rfl⟩

/-- Counterexample to C2 as stated: with the listing-page fetch of the first
URL failing, the whole process exits (SystemExit) and the second URL of the
file is never processed — a series-level fetch failure is not scoped to that
series. -/
theorem c2_counterexample :
    process_urls netDown fsOk wOk ["u1", "u2"] =
      (Except.error (PyErr.systemExit 1),
        [Event.requestSent "u1", Event.requestFailed "u1"]) ∧
    Event.requestSent "u2" ∉ (process_urls netDown fsOk wOk ["u1", "u2"]).2 :=
  ⟨rfl, by decide⟩

/-- C2 amended: a page fetch failure is never scoped: fetch_page calls
sys.exit(1), so a listing-page failure aborts the whole run including all
subsequent URLs of the file, and an episode-page failure propagates SystemExit
out of link resolution instead of skipping only that episode. -/
theorem c2_fetch_failure_exits_process :
    (∀ (net : Net) (fs : String → Bool) (w : DlWorld) (m u : String)
        (us : List String), net u = FetchOutcome.failure m →
        process_urls net fs w (u :: us) =
          (Except.error (PyErr.systemExit 1),
            [Event.requestSent u, Event.requestFailed u])) ∧
    (∀ (net : Net) (us1 : List String) (u : String) (us2 : List String)
        (m : String), (∀ v ∈ us1, ∃ l, (resolve_one net v).1 = Except.ok l) →
        net u = FetchOutcome.failure m →
        (get_download_links net (us1 ++ u :: us2)).1 =
          Except.error (PyErr.systemExit 1)) := by
  constructor
  · intro net fs w m u us h
    simp [process_urls, process_anime_download, fetch_page, h]
  · intro net us1 u us2 m h1 h2
    have hre : (resolve_one net u).1 = Except.error (PyErr.systemExit 1) := by
      simp [resolve_one, fetch_page, h2]
    rcases hgg : gdlLoop net (us1 ++ u :: us2) with ⟨gres, gtr⟩
    have h := gdlLoop_first_error net (PyErr.systemExit 1) us1 u us2 h1 hre
    rw [hgg] at h
    obtain ⟨he, _⟩ := h
    simp only at he
    simp [get_download_links, hgg, he]

/-- Witness for C2's amended theorem: a dead network aborts a two-URL file at
the first URL, and an episode-page fetch failure turns into SystemExit inside
get_download_links. -/
theorem c2_witness :
    process_urls netDown fsOk wOk ["u1", "u2"] =
      (Except.error (PyErr.systemExit 1),
        [Event.requestSent "u1", Event.requestFailed "u1"]) ∧
    (get_download_links netFetchBad [epUrl "101", epUrl "102", epUrl "103"]).1 =
      Except.error (PyErr.systemExit 1) :=
  ⟨c2_fetch_failure_exits_process.1 netDown fsOk wOk ("timeout: " ++ "u1") "u1"
      ["u2"] rfl,
   c2_fetch_failure_exits_process.2 netFetchBad [epUrl "101"] (epUrl "102")
      [epUrl "103"] "connection reset"
      (by intro v hv; fin_cases hv; exact ⟨some (cdnLink "101"), rfl⟩) rfl⟩

lemma resolutionE_classes {e : Event} (h : isResolutionE e = true) :
    isMkdirE e = false ∧ isDlStartE e = false := by
  cases e <;> simp_all [isResolutionE, isMkdirE, isDlStartE]

lemma dlStartE_classes {e : Event} (h : isDlStartE e = true) :
    isMkdirE e = false ∧ isResolutionE e = false := by
  cases e <;> simp_all [isDlStartE, isMkdirE, isResolutionE]

lemma precedesAll_append {p q : Event → Bool} {a b : List Event}
    (ha : ∀ e ∈ a, q e = false) (hb : ∀ e ∈ b, p e = false) :
    precedesAll p q (a ++ b) := by
  intro i j hi hj hp hq
  rw [List.get_eq_getElem] at hp hq
  have hia : i < a.length := by
    by_contra hge
    push_neg at hge
    rw [List.getElem_append_right hge] at hp
    rw [hb _ (List.getElem_mem _)] at hp
    exact absurd hp (by simp)
  have hjb : a.length ≤ j := by
    by_contra hlt
    push_neg at hlt
    rw [List.getElem_append_left hlt] at hq
    rw [ha _ (List.getElem_mem _)] at hq
    exact absurd hq (by simp)
  omega

lemma fetch_page_trace (net : Net) (url : String) :
    ∀ e ∈ (fetch_page net url).2, isResolutionE e = true ∧ isResolvedE e = false := by
  intro e he
  rcases hn : net url with s | m <;>
    simp only [fetch_page, hn, List.mem_cons, List.not_mem_nil, or_false] at he <;>
    rcases he with h | h <;> subst h <;> exact ⟨rfl, rfl⟩

lemma gdlLoop_trace_resolution (net : Net) :
    ∀ urls : List String, ∀ e ∈ (gdlLoop net urls).2, isResolutionE e = true := by
  intro urls
  induction urls with
  | nil => intro e he; simp [gdlLoop] at he
  | cons u us ih =>
    intro e he
    rcases hrr : resolve_one net u with ⟨res, tr⟩
    have htr : ∀ x ∈ tr, isResolutionE x = true := by
      intro x hx
      rcases resolve_one_events net u x (by rw [hrr]; exact hx) with h | h | h | h <;>
        subst h <;> rfl
    rcases hgg : gdlLoop net us with ⟨gres, gtr⟩
    have hg : ∀ x ∈ gtr, isResolutionE x = true := by
      intro x hx
      exact ih x (by rw [hgg]; exact hx)
    cases res with
    | error er =>
      simp [gdlLoop, hrr] at he
      exact htr e he
    | ok l =>
      cases gres with
      | error e2 =>
        simp [gdlLoop, hrr, hgg] at he
        rcases he with h | h
        · exact htr e h
        · exact hg e h
      | ok ls =>
        simp [gdlLoop, hrr, hgg] at he
        rcases he with h | h
        · exact htr e h
        · exact hg e h

lemma gdl_trace_eq (net : Net) (urls : List String) :
    (get_download_links net urls).2 = (gdlLoop net urls).2 := by
  rcases hgg : gdlLoop net urls with ⟨gres, gtr⟩
  cases gres with
  | error e => simp [get_download_links, hgg]
  | ok l =>
    cases hl : l.isEmpty <;> simp [get_download_links, hgg, hl]

lemma download_anime_trace (w : DlWorld) (links : List (Option String))
    (path : String) :
    ∀ e ∈ (download_anime w links path).2, isDlStartE e = true := by
  intro e he
  simp only [download_anime, List.mem_flatMap] at he
  obtain ⟨l, _, hm⟩ := he
  rw [download_episode_trace] at hm
  simp only [List.mem_cons, List.not_mem_nil, or_false] at hm
  subst hm
  rfl

lemma body_split (net : Net) (fs : String → Bool) (w : DlWorld) (url : String)
    (soup : Soup) :
    ∃ t1 t2 t3,
      (process_anime_download_body net fs w url soup).2 = t1 ++ t2 ++ t3 ∧
      (∀ e ∈ t1, ∃ n, extract_anime_name (some soup) =
          Except.ok (NameResult.name n) ∧
        e = Event.mkdir (pathJoin "Downloads" n)) ∧
      (∀ e ∈ t2, isResolutionE e = true) ∧
      (∀ e ∈ t3, isDlStartE e = true) := by
  cases hid : extract_anime_id url with
  | error e =>
    exact ⟨[], [], [], by simp [process_anime_download_body, hid], by simp,
      by simp, by simp⟩
  | ok pr =>
    rcases pr with ⟨host_page, anime_id⟩
    cases hname : extract_anime_name (some soup) with
    | error e =>
      exact ⟨[], [], [], by simp [process_anime_download_body, hid, hname],
        by simp, by simp, by simp⟩
    | ok nr =>
      cases nr with
      | attrErrorObj m =>
        exact ⟨[], [], [], by simp [process_anime_download_body, hid, hname],
          by simp, by simp, by simp⟩
      | name anime_name =>
        cases hfs : fs (pathJoin "Downloads" anime_name) with
        | false =>
          exact ⟨[], [], [], by simp [process_anime_download_body, hid, hname,
            create_download_directory, hfs], by simp, by simp, by simp⟩
        | true =>
          cases hep : get_episode_ids (some soup) with
          | error e =>
            refine ⟨[Event.mkdir (pathJoin "Downloads" anime_name)], [], [],
              ?_, ?_, by simp, by simp⟩
            · simp [process_anime_download_body, hid, hname,
                create_download_directory, hfs, hep]
            · intro e' he'
              simp only [List.mem_cons, List.not_mem_nil, or_false] at he'
              exact ⟨anime_name, rfl, he'⟩
          | ok episode_ids =>
            rcases hgdl : get_download_links net
                (generate_episodes_urls host_page anime_id
                  (episode_ids.map optStr)) with ⟨gres, gtr⟩
            have hg2 : ∀ e ∈ gtr, isResolutionE e = true := by
              intro x hx
              have hq : (get_download_links net
                  (generate_episodes_urls host_page anime_id
                    (episode_ids.map optStr))).2 = gtr := by rw [hgdl]
              rw [gdl_trace_eq] at hq
              exact gdlLoop_trace_resolution net _ x (by rw [hq]; exact hx)
            cases gres with
            | error e =>
              refine ⟨[Event.mkdir (pathJoin "Downloads" anime_name)], gtr, [],
                ?_, ?_, hg2, by simp⟩
              · simp [process_anime_download_body, hid, hname,
                  create_download_directory, hfs, hep, hgdl]
              · intro e' he'
                simp only [List.mem_cons, List.not_mem_nil, or_false] at he'
                exact ⟨anime_name, rfl, he'⟩
            | ok links =>
              refine ⟨[Event.mkdir (pathJoin "Downloads" anime_name)], gtr,
                (download_anime w links (pathJoin "Downloads" anime_name)).2,
                ?_, ?_, hg2, download_anime_trace w links _⟩
              · simp [process_anime_download_body, hid, hname,
                  create_download_directory, hfs, hep, hgdl, download_anime]
              · intro e' he'
                simp only [List.mem_cons, List.not_mem_nil, or_false] at he'
                exact ⟨anime_name, rfl, he'⟩

lemma process_trace_split (net : Net) (fs : String → Bool) (w : DlWorld)
    (url : String) :
    ∃ t0 t1 t2 t3,
      (process_anime_download net fs w url).2 = t0 ++ (t1 ++ t2 ++ t3) ∧
      (∀ e ∈ t0, isResolutionE e = true ∧ isResolvedE e = false) ∧
      (∀ e ∈ t1, ∃ n, extractedName net url = some n ∧
        e = Event.mkdir (pathJoin "Downloads" n)) ∧
      (∀ e ∈ t2, isResolutionE e = true) ∧
      (∀ e ∈ t3, isDlStartE e = true) := by
  cases hn : net url with
  | failure m =>
    refine ⟨[Event.requestSent url, Event.requestFailed url], [], [], [],
      ?_, ?_, by simp, by simp, by simp⟩
    · simp [process_anime_download, fetch_page, hn]
    · intro e he
      simp only [List.mem_cons, List.not_mem_nil, or_false] at he
      rcases he with h | h <;> subst h <;> exact ⟨rfl, rfl⟩
  | success soup =>
    obtain ⟨t1, t2, t3, htr, h1, h2, h3⟩ := body_split net fs w url soup
    refine ⟨[Event.requestSent url, Event.responseReceived url], t1, t2, t3,
      ?_, ?_, ?_, h2, h3⟩
    · rcases hb : process_anime_download_body net fs w url soup with ⟨bres, btr⟩
      rw [hb] at htr
      simp only at htr
      cases bres with
      | error e =>
        cases e <;>
          simp [process_anime_download, fetch_page, hn, hb, htr]
      | ok uu => simp [process_anime_download, fetch_page, hn, hb, htr]
    · intro e he
      simp only [List.mem_cons, List.not_mem_nil, or_false] at he
      rcases he with h | h <;> subst h <;> exact ⟨rfl, rfl⟩
    · intro e he
      obtain ⟨n, hna, hee⟩ := h1 e he
      exact ⟨n, by simp [extractedName, hn, hna], hee⟩

/-- C7: the destination directory is pathJoin "Downloads" name for the
extracted series name (hence literally Downloads/<name> whenever the name does
not begin with a slash), and its creation strictly precedes every link
resolution completion and every download start in the run's trace. -/
theorem c7_directory_before_downloads (net : Net) (fs : String → Bool)
    (w : DlWorld) (url : String) :
    (∀ p, Event.mkdir p ∈ (process_anime_download net fs w url).2 →
        ∃ n, extractedName net url = some n ∧ p = pathJoin "Downloads" n) ∧
    (∀ n : String, n.data.head? ≠ some '/' →
        pathJoin "Downloads" n = "Downloads/" ++ n) ∧
    precedesAll isMkdirE (fun e => isResolvedE e || isDlStartE e)
      (process_anime_download net fs w url).2 := by
  obtain ⟨t0, t1, t2, t3, htr, h0, h1, h2, h3⟩ := process_trace_split net fs w url
  refine ⟨?_, ?_, ?_⟩
  · intro p hp
    rw [htr] at hp
    simp only [List.mem_append, or_assoc] at hp
    rcases hp with h | h | h | h
    · exact absurd (h0 _ h).1 (by simp [isResolutionE])
    · obtain ⟨n, hn, he⟩ := h1 _ h
      exact ⟨n, hn, by injection he⟩
    · exact absurd (h2 _ h) (by simp [isResolutionE])
    · exact absurd (h3 _ h) (by simp [isDlStartE])
  · intro n hn
    unfold pathJoin
    rw [if_neg hn, if_neg (by decide :
      ¬(("Downloads" : String) = "" ∨ "Downloads".data.getLast? = some '/'))]
    rw [show ("Downloads" ++ "/" : String) = "Downloads/" by decide]
  · rw [htr, show t0 ++ (t1 ++ t2 ++ t3) = (t0 ++ t1) ++ (t2 ++ t3) by
      simp [List.append_assoc]]
    apply precedesAll_append
    · intro e he
      rcases List.mem_append.mp he with h | h
      · obtain ⟨hres, hresd⟩ := h0 e h
        simp [hresd, (resolutionE_classes hres).2]
      · obtain ⟨n, _, he'⟩ := h1 e h
        subst he'
        rfl
    · intro e he
      rcases List.mem_append.mp he with h | h
      · exact (resolutionE_classes (h2 e h)).1
      · exact (dlStartE_classes (h3 e h)).1

/-- Witness for C7 on the three-episode fixture run. -/
theorem c7_witness :
    (∃ n, extractedName netGood listingUrl = some n ∧
        "Downloads/Example Series" = pathJoin "Downloads" n) ∧
    pathJoin "Downloads" "Example Series" = "Downloads/" ++ "Example Series" :=
  ⟨(c7_directory_before_downloads netGood fsOk wOk listingUrl).1
      "Downloads/Example Series" (by decide),
   (c7_directory_before_downloads netGood fsOk wOk listingUrl).2.1
      "Example Series" (by decide)⟩

lemma gdlLoop_inflight (net : Net) :
    ∀ urls : List String, inFlightMaxAux 0 (gdlLoop net urls).2 ≤ 1 := by
  intro urls
  induction urls with
  | nil => simp [gdlLoop, inFlightMaxAux]
  | cons u us ih =>
    rcases hgg : gdlLoop net us with ⟨gres, gtr⟩
    rw [hgg] at ih
    simp only at ih
    rcases hn : net u with s | m
    · cases hp : process_episode_url (some s) with
      | error e =>
        simp [gdlLoop, resolve_one, fetch_page, hn, hp, inFlightMaxAux, applyEvent]
      | ok l =>
        cases gres with
        | error e2 =>
          simp [gdlLoop, resolve_one, fetch_page, hn, hp, hgg, inFlightMaxAux,
            applyEvent]
          omega
        | ok ls =>
          simp [gdlLoop, resolve_one, fetch_page, hn, hp, hgg, inFlightMaxAux,
            applyEvent]
          omega
    · simp [gdlLoop, resolve_one, fetch_page, hn, inFlightMaxAux, applyEvent]

/-- Counterexample to C8 as stated: on a concrete batch of three episode-page
URLs the resolution trace never has two requests in flight at once — there is
no fan-out across a worker pool in get_download_links. -/
theorem c8_counterexample :
    ¬ 2 ≤ maxInFlight (get_download_links netGood
        [epUrl "101", epUrl "102", epUrl "103"]).2 := by decide

/-- C8 amended: link resolution is strictly sequential — at most one request
in flight at any point of its trace, for every network and URL list — while
remaining a stage of its own that completes before any download starts. -/
theorem c8_resolution_sequential_not_pooled :
    (∀ (net : Net) (urls : List String),
        maxInFlight (get_download_links net urls).2 ≤ 1) ∧
    (∀ (net : Net) (fs : String → Bool) (w : DlWorld) (url : String),
        precedesAll isResolutionE isDlStartE
          (process_anime_download net fs w url).2) := by
  constructor
  · intro net urls
    rw [maxInFlight, gdl_trace_eq]
    exact gdlLoop_inflight net urls
  · intro net fs w url
    obtain ⟨t0, t1, t2, t3, htr, h0, h1, h2, h3⟩ := process_trace_split net fs w url
    rw [htr, show t0 ++ (t1 ++ t2 ++ t3) = (t0 ++ (t1 ++ t2)) ++ t3 by
      simp [List.append_assoc]]
    apply precedesAll_append
    · intro e he
      rcases List.mem_append.mp he with h | h
      · exact (resolutionE_classes (h0 e h).1).2
      · rcases List.mem_append.mp h with h' | h'
        · obtain ⟨n, _, he'⟩ := h1 e h'
          subst he'
          rfl
        · exact (resolutionE_classes (h2 e h')).2
    · intro e he
      exact (dlStartE_classes (h3 e he)).2

/-- Witness for C8's amended theorem on the fixture batch. -/
theorem c8_witness :
    maxInFlight (get_download_links netGood
        [epUrl "101", epUrl "102", epUrl "103"]).2 ≤ 1 :=
  c8_resolution_sequential_not_pooled.1 netGood [epUrl "101", epUrl "102", epUrl "103"]

